import Mathlib

/-!
Shallow embedding of the koonkie log follower (src/log_follower.go).

The follower replays a bounded compacted snapshot of an event log and then
switches to tailing the live log.  The log source (`repository.Documents`)
is modelled as a pair of deterministic response functions, one per RPC; the
requests issued during a call are recorded so that properties about what is
sent to the source (filters, wait budgets, memoisation of the boundary
fetch) can be stated.  Machine integers (`int64`, `int32`) are modelled as
`Int` with explicit wrapping where Go converts between widths.
-/

namespace Koonkie

/-- An eventlog item (`repository.EventlogItem`): integer ID plus type tag.
    Only the fields the follower reads are modelled. -/
structure EventlogItem where
  id : Int
  type : String
deriving DecidableEq

/-- `repository.GetEventlogRequest` as built by the follower:
    `After`, `BatchSize`, `WaitMs` (zero-valued fields included). -/
structure GetEventlogRequest where
  after : Int
  batchSize : Int
  waitMs : Int
deriving DecidableEq

/-- `repository.GetCompactedEventlogRequest` as built by the follower:
    `After`, `Until`, `Type`.  The `Until` field is called `untilId` here
    because `until` is reserved in Lean. -/
structure GetCompactedEventlogRequest where
  after : Int
  untilId : Int
  type : String
deriving DecidableEq

/-- A request issued to the log source during one call. -/
inductive SourceReq where
  | ev : GetEventlogRequest → SourceReq
  | cev : GetCompactedEventlogRequest → SourceReq
deriving DecidableEq

/-- The log source (`repository.Documents`), modelled as deterministic
    response functions: each request either fails with an error message or
    returns a batch of items. -/
structure Docs where
  eventlog : GetEventlogRequest → Except String (List EventlogItem)
  compactedEventlog : GetCompactedEventlogRequest → Except String (List EventlogItem)

/-- The follower state (`LogFollower` struct).  The `docs` handle lives
    outside the state (passed to each operation); `metrics` keeps only
    whether a sink is present, since what is reported is returned
    explicitly by `GetNext`.  The mutex only serialises `checkLogEnd` and
    has no sequential content. -/
structure LogFollower where
  docType : String
  position : Int
  caughtUp : Bool
  wait : Int
  metrics : Bool
  endCompactRead : Bool
  endCompact : Int
deriving DecidableEq

/-- `eventlogBatchSize` constant (100). -/
def eventlogBatchSize : Int := 100

/-- `compactedBlockSize` constant (500). -/
def compactedBlockSize : Int := 500

/-- Largest signed 32-bit integer (`math.MaxInt32`). -/
def maxInt32 : Int := 2147483647

/-- Go conversion `int32(x)` from a 64-bit value: two-complement wrap
    into `[-2^31, 2^31)`. -/
def wrapInt32 (x : Int) : Int :=
  (x + 2147483648) % 4294967296 - 2147483648

/-- `time.Duration.Milliseconds()`: the duration is an `int64` nanosecond
    count; Go integer division truncates toward zero. -/
def goMilliseconds (ns : Int) : Int := Int.tdiv ns 1000000

/-- `FollowerOptions`: construction-time configuration.  `metrics` records
    whether a metrics sink was supplied; `waitDuration` is the nanosecond
    count of the `time.Duration`. -/
structure FollowerOptions where
  metrics : Bool
  docType : String
  startAfter : Int
  caughtUp : Bool
  waitDuration : Int
deriving DecidableEq

/-- `NewLogFollower`: builds the follower from the options.  It sets
    `docType`, `position`, `caughtUp` and `wait`
    (`int32(min(opts.WaitDuration.Milliseconds(), math.MaxInt32))`); the
    `metrics`, `endCompactRead` and `endCompact` fields are left at their
    Go zero values — in particular `opts.Metrics` is not copied. -/
def NewLogFollower (opts : FollowerOptions) : LogFollower :=
  { docType := opts.docType
    position := opts.startAfter
    caughtUp := opts.caughtUp
    wait := wrapInt32 (min (goMilliseconds opts.waitDuration) maxInt32)
    metrics := false
    endCompactRead := false
    endCompact := 0 }

/-- `GetState`: pure read of `(position, caughtUp)`. -/
def GetState (lf : LogFollower) : Int × Bool :=
  (lf.position, lf.caughtUp)

/-- Outcome of `checkLogEnd`: optional error, updated state, requests
    issued to the source. -/
structure CheckResult where
  err : Option String
  state : LogFollower
  reqs : List SourceReq
deriving DecidableEq

/-- The request `checkLogEnd` sends to resolve the boundary:
    `GetEventlogRequest{After: -1}` with zero-valued other fields. -/
def boundaryReq : GetEventlogRequest :=
  { after := -1, batchSize := 0, waitMs := 0 }

/-- `checkLogEnd`: lazily resolves the compacted/live boundary.  If already
    resolved it is a no-op; otherwise it fetches the most recent live entry
    (`After: -1`), stores its ID in `endCompact` when the log is non-empty,
    and marks the boundary resolved.  On fetch failure nothing is changed. -/
def checkLogEnd (docs : Docs) (lf : LogFollower) : CheckResult :=
  if lf.endCompactRead then
    { err := none, state := lf, reqs := [] }
  else
    match docs.eventlog boundaryReq with
    | .error e =>
        { err := some ("read last event in eventlog: " ++ e)
          state := lf
          reqs := [.ev boundaryReq] }
    | .ok items =>
        let lf2 :=
          match items with
          | [] => lf
          | item :: _ => { lf with endCompact := item.id }
        { err := none
          state := { lf2 with endCompactRead := true }
          reqs := [.ev boundaryReq] }

/-- Outcome of a poll: result batch or error, updated state, requests
    issued to the source. -/
structure PollResult where
  result : Except String (List EventlogItem)
  state : LogFollower
  reqs : List SourceReq

/-- `pollEventlog` (Tailing mode): requests a batch strictly after the
    current position with the configured wait budget, filters the returned
    items client-side by `docType` (items are kept when no filter is set or
    the type matches), and advances `position` to the ID of the last raw
    item when the raw batch is non-empty. -/
def pollEventlog (docs : Docs) (lf : LogFollower) : PollResult :=
  let req : GetEventlogRequest :=
    { after := lf.position, batchSize := eventlogBatchSize, waitMs := lf.wait }
  match docs.eventlog req with
  | .error e =>
      { result := .error ("poll eventlog: " ++ e)
        state := lf
        reqs := [.ev req] }
  | .ok raw =>
      let items := raw.filter fun item =>
        lf.docType == "" || item.type == lf.docType
      let lf2 :=
        match raw.getLast? with
        | some last => { lf with position := last.id }
        | none => lf
      { result := .ok items, state := lf2, reqs := [.ev req] }

/-- `pollCompactedEventlog` (Compacted mode): computes the window ceiling
    `min(endCompact, position + compactedBlockSize)`, requests that window
    with the type filter passed server-side, then advances `position` to
    the ceiling unconditionally and flips `caughtUp` when the ceiling has
    reached the boundary. -/
def pollCompactedEventlog (docs : Docs) (lf : LogFollower) : PollResult :=
  let u := min lf.endCompact (lf.position + compactedBlockSize)
  let req : GetCompactedEventlogRequest :=
    { after := lf.position, untilId := u, type := lf.docType }
  match docs.compactedEventlog req with
  | .error e =>
      { result := .error ("poll compacted eventlog: " ++ e)
        state := lf
        reqs := [.cev req] }
  | .ok items =>
      let lf2 :=
        if u ≥ lf.endCompact then
          { lf with position := u, caughtUp := true }
        else
          { lf with position := u }
      { result := .ok items, state := lf2, reqs := [.cev req] }

/-- Outcome of `GetNext`: result batch or error, updated state, requests
    issued to the source, metric observations reported to the sink. -/
structure StepResult where
  result : Except String (List EventlogItem)
  state : LogFollower
  reqs : List SourceReq
  reports : List (String × Int)

/-- `GetNext`: ensures the boundary is resolved, polls the live log when
    caught up and the compacted log otherwise, and on success reports the
    mode label and position to the metrics sink when one is present.  The
    mode label is read after the poll, so a call that flips the mode
    reports the new label. -/
def GetNext (docs : Docs) (lf : LogFollower) : StepResult :=
  let c := checkLogEnd docs lf
  match c.err with
  | some e =>
      { result := .error e, state := c.state, reqs := c.reqs, reports := [] }
  | none =>
      let lf1 := c.state
      let p := if lf1.caughtUp then pollEventlog docs lf1
               else pollCompactedEventlog docs lf1
      match p.result with
      | .error e =>
          { result := .error e
            state := p.state
            reqs := c.reqs ++ p.reqs
            reports := [] }
      | .ok items =>
          let lf2 := p.state
          let label := if lf2.caughtUp then "tail" else "compact"
          { result := .ok items
            state := lf2
            reqs := c.reqs ++ p.reqs
            reports := if lf2.metrics then [(label, lf2.position)] else [] }

/-- Iterated `GetNext`: the follower state after `n` consecutive calls
    against the same log source. -/
def runFollower (docs : Docs) (lf : LogFollower) : Nat → LogFollower
  | 0 => lf
  | n + 1 => runFollower docs (GetNext docs lf).state n

/-- A log source honours the tail contract when every successful live
    fetch returns only items whose IDs are strictly after the requested
    position (spec: items strictly after `after`, ascending IDs). -/
def TailSane (docs : Docs) : Prop :=
  ∀ r items item, docs.eventlog r = .ok items → item ∈ items → r.after < item.id

/-- Invariant under which the position watermark cannot move backwards:
    either the follower is already tailing, or its boundary is resolved
    and the position has not overshot it. -/
def PosInv (lf : LogFollower) : Prop :=
  lf.caughtUp = true ∨ (lf.endCompactRead = true ∧ lf.position ≤ lf.endCompact)

/-- A log source whose live and compacted logs are both empty. -/
def emptyLogDocs : Docs :=
  { eventlog := fun _ => .ok []
    compactedEventlog := fun _ => .ok [] }

/-- A log source whose every request fails. -/
def failingDocs : Docs :=
  { eventlog := fun _ => .error "network"
    compactedEventlog := fun _ => .error "network" }

/-- A log source whose most recent live entry has ID 1000 and whose other
    scans return no items. -/
def docsLatest1000 : Docs :=
  { eventlog := fun r =>
      if r.after = -1 then .ok [{ id := 1000, type := "article" }] else .ok []
    compactedEventlog := fun _ => .ok [] }

/-- A log source whose most recent live entry has ID 10 and whose other
    scans return no items. -/
def docsLatest10 : Docs :=
  { eventlog := fun r =>
      if r.after = -1 then .ok [{ id := 10, type := "article" }] else .ok []
    compactedEventlog := fun _ => .ok [] }

/-- A tailing log source: the boundary probe returns the entry with ID 1,
    every other live fetch returns one `article` item (ID 21) followed by
    one `note` item (ID 22). -/
def docsMixed : Docs :=
  { eventlog := fun r =>
      if r.after = -1 then .ok [{ id := 1, type := "article" }]
      else .ok [{ id := 21, type := "article" }, { id := 22, type := "note" }]
    compactedEventlog := fun _ => .ok [] }

/-- Follower options used in concrete scenarios: empty filter, start 5,
    compacted mode, zero wait. -/
def optsStart5 : FollowerOptions :=
  { metrics := false, docType := "", startAfter := 5, caughtUp := false
    waitDuration := 0 }

/-- Follower options with starting position 0 in compacted mode. -/
def optsStart0 : FollowerOptions :=
  { metrics := false, docType := "", startAfter := 0, caughtUp := false
    waitDuration := 0 }

/-- Follower options with starting position 1000 in compacted mode. -/
def optsStart1000 : FollowerOptions :=
  { metrics := false, docType := "", startAfter := 1000, caughtUp := false
    waitDuration := 0 }

/-- Follower options whose wait duration in milliseconds is one below the
    smallest signed 32-bit value. -/
def optsHugeNegWait : FollowerOptions :=
  { metrics := false, docType := "", startAfter := 0, caughtUp := false
    waitDuration := -2147483649000000 }

/-- Follower options whose wait duration in milliseconds is two below the
    smallest signed 32-bit value. -/
def optsHugeNegWait2 : FollowerOptions :=
  { metrics := false, docType := "", startAfter := 0, caughtUp := false
    waitDuration := -2147483650000000 }

/-- Follower options with a five-second wait duration. -/
def optsWait5s : FollowerOptions :=
  { metrics := false, docType := "", startAfter := 0, caughtUp := false
    waitDuration := 5000000000 }

/-- Follower options with a minus-five-millisecond wait duration. -/
def optsNegWait5ms : FollowerOptions :=
  { metrics := false, docType := "", startAfter := 0, caughtUp := false
    waitDuration := -5000000 }

/-- A tailing follower with resolved boundary, position 7, no filter. -/
def lfTail7 : LogFollower :=
  { docType := "", position := 7, caughtUp := true, wait := 0
    metrics := false, endCompactRead := true, endCompact := 0 }

/-- A tailing follower with resolved boundary, position 20 and filter
    `article`. -/
def lfTailArticle : LogFollower :=
  { docType := "article", position := 20, caughtUp := true, wait := 0
    metrics := false, endCompactRead := true, endCompact := 1 }

/-- A compacted-mode follower with resolved boundary 50, position 3 and
    filter `article`. -/
def lfCompactArticle : LogFollower :=
  { docType := "article", position := 3, caughtUp := false, wait := 0
    metrics := false, endCompactRead := true, endCompact := 50 }

/-- A tailing follower whose stored wait budget is minus five
    milliseconds. -/
def lfNegWait : LogFollower :=
  { docType := "", position := 9, caughtUp := true, wait := -5
    metrics := false, endCompactRead := true, endCompact := 0 }

section FrameLemmas

variable (docs : Docs) (lf : LogFollower)

lemma checkLogEnd_position : (checkLogEnd docs lf).state.position = lf.position := by
  unfold checkLogEnd
  by_cases h : lf.endCompactRead
  · simp [h]
  · cases hres : docs.eventlog boundaryReq with
    | error e => simp [h, hres]
    | ok items => cases items <;> simp [h, hres]

lemma checkLogEnd_caughtUp : (checkLogEnd docs lf).state.caughtUp = lf.caughtUp := by
  unfold checkLogEnd
  by_cases h : lf.endCompactRead
  · simp [h]
  · cases hres : docs.eventlog boundaryReq with
    | error e => simp [h, hres]
    | ok items => cases items <;> simp [h, hres]

lemma checkLogEnd_metrics : (checkLogEnd docs lf).state.metrics = lf.metrics := by
  unfold checkLogEnd
  by_cases h : lf.endCompactRead
  · simp [h]
  · cases hres : docs.eventlog boundaryReq with
    | error e => simp [h, hres]
    | ok items => cases items <;> simp [h, hres]

lemma checkLogEnd_docType : (checkLogEnd docs lf).state.docType = lf.docType := by
  unfold checkLogEnd
  by_cases h : lf.endCompactRead
  · simp [h]
  · cases hres : docs.eventlog boundaryReq with
    | error e => simp [h, hres]
    | ok items => cases items <;> simp [h, hres]

lemma checkLogEnd_wait : (checkLogEnd docs lf).state.wait = lf.wait := by
  unfold checkLogEnd
  by_cases h : lf.endCompactRead
  · simp [h]
  · cases hres : docs.eventlog boundaryReq with
    | error e => simp [h, hres]
    | ok items => cases items <;> simp [h, hres]

lemma checkLogEnd_of_read (h : lf.endCompactRead = true) :
    checkLogEnd docs lf = { err := none, state := lf, reqs := [] } := by
  unfold checkLogEnd
  simp [h]

lemma checkLogEnd_err_some {e : String} (h : (checkLogEnd docs lf).err = some e) :
    (checkLogEnd docs lf).state = lf := by
  unfold checkLogEnd at h ⊢
  by_cases hr : lf.endCompactRead
  · simp [hr] at h
  · cases hres : docs.eventlog boundaryReq with
    | error e2 => simp [hr, hres]
    | ok items => cases items <;> simp [hr, hres] at h

lemma checkLogEnd_err_none_read (h : (checkLogEnd docs lf).err = none) :
    (checkLogEnd docs lf).state.endCompactRead = true := by
  unfold checkLogEnd at h ⊢
  by_cases hr : lf.endCompactRead
  · simp [hr]
  · cases hres : docs.eventlog boundaryReq with
    | error e2 => simp [hr, hres] at h
    | ok items => cases items <;> simp [hr, hres]

lemma pollEventlog_reqs :
    (pollEventlog docs lf).reqs =
      [.ev { after := lf.position, batchSize := eventlogBatchSize, waitMs := lf.wait }] := by
  unfold pollEventlog
  cases hres : docs.eventlog
      { after := lf.position, batchSize := eventlogBatchSize, waitMs := lf.wait } <;>
    simp [hres]

lemma pollEventlog_caughtUp : (pollEventlog docs lf).state.caughtUp = lf.caughtUp := by
  unfold pollEventlog
  cases hres : docs.eventlog
      { after := lf.position, batchSize := eventlogBatchSize, waitMs := lf.wait } with
  | error e => simp [hres]
  | ok raw =>
      cases hlast : raw.getLast? <;> simp [hres, hlast]

lemma pollEventlog_metrics : (pollEventlog docs lf).state.metrics = lf.metrics := by
  unfold pollEventlog
  cases hres : docs.eventlog
      { after := lf.position, batchSize := eventlogBatchSize, waitMs := lf.wait } with
  | error e => simp [hres]
  | ok raw =>
      cases hlast : raw.getLast? <;> simp [hres, hlast]

lemma pollEventlog_endCompact : (pollEventlog docs lf).state.endCompact = lf.endCompact := by
  unfold pollEventlog
  cases hres : docs.eventlog
      { after := lf.position, batchSize := eventlogBatchSize, waitMs := lf.wait } with
  | error e => simp [hres]
  | ok raw =>
      cases hlast : raw.getLast? <;> simp [hres, hlast]

lemma pollEventlog_endCompactRead :
    (pollEventlog docs lf).state.endCompactRead = lf.endCompactRead := by
  unfold pollEventlog
  cases hres : docs.eventlog
      { after := lf.position, batchSize := eventlogBatchSize, waitMs := lf.wait } with
  | error e => simp [hres]
  | ok raw =>
      cases hlast : raw.getLast? <;> simp [hres, hlast]

lemma pollEventlog_error_state {e : String}
    (h : (pollEventlog docs lf).result = .error e) :
    (pollEventlog docs lf).state = lf := by
  unfold pollEventlog at h ⊢
  cases hres : docs.eventlog
      { after := lf.position, batchSize := eventlogBatchSize, waitMs := lf.wait } with
  | error e2 => simp [hres]
  | ok raw => simp [hres] at h

lemma pollCompactedEventlog_reqs :
    (pollCompactedEventlog docs lf).reqs =
      [.cev { after := lf.position
              untilId := min lf.endCompact (lf.position + compactedBlockSize)
              type := lf.docType }] := by
  unfold pollCompactedEventlog
  cases hres : docs.compactedEventlog
      { after := lf.position
        untilId := min lf.endCompact (lf.position + compactedBlockSize)
        type := lf.docType } <;>
    simp [hres]

lemma pollCompactedEventlog_metrics :
    (pollCompactedEventlog docs lf).state.metrics = lf.metrics := by
  unfold pollCompactedEventlog
  cases hres : docs.compactedEventlog
      { after := lf.position
        untilId := min lf.endCompact (lf.position + compactedBlockSize)
        type := lf.docType } with
  | error e => simp [hres]
  | ok items =>
      by_cases hu : min lf.endCompact (lf.position + compactedBlockSize) ≥ lf.endCompact <;>
        simp [hres, hu]

lemma pollCompactedEventlog_endCompact :
    (pollCompactedEventlog docs lf).state.endCompact = lf.endCompact := by
  unfold pollCompactedEventlog
  cases hres : docs.compactedEventlog
      { after := lf.position
        untilId := min lf.endCompact (lf.position + compactedBlockSize)
        type := lf.docType } with
  | error e => simp [hres]
  | ok items =>
      by_cases hu : min lf.endCompact (lf.position + compactedBlockSize) ≥ lf.endCompact <;>
        simp [hres, hu]

lemma pollCompactedEventlog_endCompactRead :
    (pollCompactedEventlog docs lf).state.endCompactRead = lf.endCompactRead := by
  unfold pollCompactedEventlog
  cases hres : docs.compactedEventlog
      { after := lf.position
        untilId := min lf.endCompact (lf.position + compactedBlockSize)
        type := lf.docType } with
  | error e => simp [hres]
  | ok items =>
      by_cases hu : min lf.endCompact (lf.position + compactedBlockSize) ≥ lf.endCompact <;>
        simp [hres, hu]

lemma pollCompactedEventlog_error_state {e : String}
    (h : (pollCompactedEventlog docs lf).result = .error e) :
    (pollCompactedEventlog docs lf).state = lf := by
  unfold pollCompactedEventlog at h ⊢
  cases hres : docs.compactedEventlog
      { after := lf.position
        untilId := min lf.endCompact (lf.position + compactedBlockSize)
        type := lf.docType } with
  | error e2 => simp [hres]
  | ok items => simp [hres] at h

lemma pollCompactedEventlog_ok_state {items : List EventlogItem}
    (h : (pollCompactedEventlog docs lf).result = .ok items) :
    (pollCompactedEventlog docs lf).state.position =
        min lf.endCompact (lf.position + compactedBlockSize) ∧
      (pollCompactedEventlog docs lf).state.caughtUp =
        (lf.caughtUp ||
          decide (min lf.endCompact (lf.position + compactedBlockSize) ≥ lf.endCompact)) := by
  unfold pollCompactedEventlog at h ⊢
  cases hres : docs.compactedEventlog
      { after := lf.position
        untilId := min lf.endCompact (lf.position + compactedBlockSize)
        type := lf.docType } with
  | error e2 => simp [hres] at h
  | ok items2 =>
      by_cases hu : min lf.endCompact (lf.position + compactedBlockSize) ≥ lf.endCompact <;>
        simp [hres, hu]

end FrameLemmas

lemma mem_of_getLast?_eq {α : Type} {l : List α} {a : α} (h : l.getLast? = some a) :
    a ∈ l := by
  have hx : a ∈ l.getLast? := by simp [Option.mem_def, h]
  obtain ⟨hne, heq⟩ := List.mem_getLast?_eq_getLast hx
  rw [heq]
  exact List.getLast_mem hne

section StepLemmas

variable (docs : Docs) (lf : LogFollower)

lemma pollEventlog_pos_mono (hs : TailSane docs) :
    lf.position ≤ (pollEventlog docs lf).state.position := by
  unfold pollEventlog
  cases hres : docs.eventlog
      { after := lf.position, batchSize := eventlogBatchSize, waitMs := lf.wait } with
  | error e => simp [hres]
  | ok raw =>
      cases hlast : raw.getLast? with
      | none => simp [hres, hlast]
      | some last =>
          simp only [hres, hlast]
          have hmem : last ∈ raw := mem_of_getLast?_eq hlast
          have := hs _ raw last hres hmem
          simpa using le_of_lt this

lemma pollCompactedEventlog_pos_mono (h : lf.position ≤ lf.endCompact) :
    lf.position ≤ (pollCompactedEventlog docs lf).state.position := by
  unfold pollCompactedEventlog
  cases hres : docs.compactedEventlog
      { after := lf.position
        untilId := min lf.endCompact (lf.position + compactedBlockSize)
        type := lf.docType } with
  | error e => simp [hres]
  | ok items =>
      have hmin : lf.position ≤ min lf.endCompact (lf.position + compactedBlockSize) := by
        refine le_min h ?_
        norm_num [compactedBlockSize]
      by_cases hu : min lf.endCompact (lf.position + compactedBlockSize) ≥ lf.endCompact <;>
        simpa [hres, hu] using hmin

lemma GetNext_state_metrics : (GetNext docs lf).state.metrics = lf.metrics := by
  simp only [GetNext]
  cases hc : (checkLogEnd docs lf).err with
  | some e => simp [checkLogEnd_err_some docs lf hc]
  | none =>
      by_cases hcu : (checkLogEnd docs lf).state.caughtUp
      · cases hp : (pollEventlog docs (checkLogEnd docs lf).state).result with
        | error e => simp [hcu, hp, pollEventlog_metrics, checkLogEnd_metrics]
        | ok items => simp [hcu, hp, pollEventlog_metrics, checkLogEnd_metrics]
      · cases hp : (pollCompactedEventlog docs (checkLogEnd docs lf).state).result with
        | error e =>
            simp [hcu, hp, pollCompactedEventlog_metrics, checkLogEnd_metrics]
        | ok items =>
            simp [hcu, hp, pollCompactedEventlog_metrics, checkLogEnd_metrics]

lemma GetNext_reports_of_no_metrics (h : lf.metrics = false) :
    (GetNext docs lf).reports = [] := by
  simp only [GetNext]
  cases hc : (checkLogEnd docs lf).err with
  | some e => simp
  | none =>
      by_cases hcu : (checkLogEnd docs lf).state.caughtUp
      · cases hp : (pollEventlog docs (checkLogEnd docs lf).state).result with
        | error e => simp [hcu, hp]
        | ok items => simp [hcu, hp, pollEventlog_metrics, checkLogEnd_metrics, h]
      · cases hp : (pollCompactedEventlog docs (checkLogEnd docs lf).state).result with
        | error e => simp [hcu, hp]
        | ok items =>
            simp [hcu, hp, pollCompactedEventlog_metrics, checkLogEnd_metrics, h]

lemma GetNext_caughtUp_mono (h : lf.caughtUp = true) :
    (GetNext docs lf).state.caughtUp = true := by
  simp only [GetNext]
  cases hc : (checkLogEnd docs lf).err with
  | some e => simp [checkLogEnd_err_some docs lf hc, h]
  | none =>
      have hcu : (checkLogEnd docs lf).state.caughtUp = true := by
        rw [checkLogEnd_caughtUp]; exact h
      cases hp : (pollEventlog docs (checkLogEnd docs lf).state).result with
      | error e =>
          simp [hcu, hp, pollEventlog_error_state docs _ hp]
      | ok items =>
          simp [hcu, hp, pollEventlog_caughtUp]

lemma GetNext_error_frame {e : String} (h : (GetNext docs lf).result = .error e) :
    (GetNext docs lf).state.position = lf.position ∧
      (GetNext docs lf).state.caughtUp = lf.caughtUp := by
  simp only [GetNext] at h ⊢
  cases hc : (checkLogEnd docs lf).err with
  | some e2 =>
      simp only [hc]
      simp [checkLogEnd_err_some docs lf hc]
  | none =>
      simp only [hc] at h ⊢
      by_cases hcu : (checkLogEnd docs lf).state.caughtUp = true
      · rw [if_pos hcu] at h ⊢
        cases hp : (pollEventlog docs (checkLogEnd docs lf).state).result with
        | error e2 =>
            simp only [hp]
            simp [pollEventlog_error_state docs _ hp,
              checkLogEnd_position, checkLogEnd_caughtUp]
        | ok items => simp [hp] at h
      · rw [if_neg hcu] at h ⊢
        cases hp : (pollCompactedEventlog docs (checkLogEnd docs lf).state).result with
        | error e2 =>
            simp only [hp]
            simp [pollCompactedEventlog_error_state docs _ hp,
              checkLogEnd_position, checkLogEnd_caughtUp]
        | ok items => simp [hp] at h

lemma GetNext_tail_reqs (hcu : lf.caughtUp = true) (hr : lf.endCompactRead = true) :
    (GetNext docs lf).reqs =
      [.ev { after := lf.position, batchSize := eventlogBatchSize, waitMs := lf.wait }] := by
  simp only [GetNext, checkLogEnd_of_read docs lf hr]
  cases hp : (pollEventlog docs lf).result with
  | error e => simp [hcu, hp, pollEventlog_reqs]
  | ok items => simp [hcu, hp, pollEventlog_reqs]

lemma GetNext_compacted_reqs (hcu : lf.caughtUp = false) (hr : lf.endCompactRead = true) :
    (GetNext docs lf).reqs =
      [.cev { after := lf.position
              untilId := min lf.endCompact (lf.position + compactedBlockSize)
              type := lf.docType }] := by
  simp only [GetNext, checkLogEnd_of_read docs lf hr]
  cases hp : (pollCompactedEventlog docs lf).result with
  | error e => simp [hcu, hp, pollCompactedEventlog_reqs]
  | ok items => simp [hcu, hp, pollCompactedEventlog_reqs]

lemma GetNext_read_frame (hr : lf.endCompactRead = true) :
    (GetNext docs lf).state.endCompact = lf.endCompact ∧
      (GetNext docs lf).state.endCompactRead = true := by
  simp only [GetNext, checkLogEnd_of_read docs lf hr]
  by_cases hcu : lf.caughtUp
  · cases hp : (pollEventlog docs lf).result with
    | error e =>
        simp [hcu, hp, pollEventlog_error_state docs _ hp, hr]
    | ok items =>
        simp [hcu, hp, pollEventlog_endCompact, pollEventlog_endCompactRead, hr]
  · cases hp : (pollCompactedEventlog docs lf).result with
    | error e =>
        simp [hcu, hp, pollCompactedEventlog_error_state docs _ hp, hr]
    | ok items =>
        simp [hcu, hp, pollCompactedEventlog_endCompact,
          pollCompactedEventlog_endCompactRead, hr]

lemma GetNext_step_posInv (hs : TailSane docs) (hinv : PosInv lf) :
    lf.position ≤ (GetNext docs lf).state.position ∧ PosInv (GetNext docs lf).state := by
  rcases hinv with hcu | ⟨hread, hle⟩
  · constructor
    · simp only [GetNext]
      cases hc : (checkLogEnd docs lf).err with
      | some e =>
          simp only [hc]
          simp [checkLogEnd_err_some docs lf hc]
      | none =>
          simp only [hc]
          have hcu1 : (checkLogEnd docs lf).state.caughtUp = true := by
            rw [checkLogEnd_caughtUp]; exact hcu
          rw [if_pos hcu1]
          cases hp : (pollEventlog docs (checkLogEnd docs lf).state).result with
          | error e =>
              simp only [hp]
              simp [pollEventlog_error_state docs _ hp, checkLogEnd_position]
          | ok items =>
              simp only [hp]
              have := pollEventlog_pos_mono docs (checkLogEnd docs lf).state hs
              rw [checkLogEnd_position] at this
              simpa using this
    · exact Or.inl (GetNext_caughtUp_mono docs lf hcu)
  · by_cases hcu : lf.caughtUp = true
    · refine ⟨?_, Or.inl (GetNext_caughtUp_mono docs lf hcu)⟩
      simp only [GetNext, checkLogEnd_of_read docs lf hread]
      rw [if_pos hcu]
      cases hp : (pollEventlog docs lf).result with
      | error e =>
          simp only [hp]
          simp [pollEventlog_error_state docs _ hp]
      | ok items =>
          simp only [hp]
          have := pollEventlog_pos_mono docs lf hs
          simpa using this
    · simp only [GetNext, checkLogEnd_of_read docs lf hread]
      rw [if_neg hcu]
      cases hp : (pollCompactedEventlog docs lf).result with
      | error e =>
          have hst : (pollCompactedEventlog docs lf).state = lf :=
            pollCompactedEventlog_error_state docs _ hp
          simp only [hp]
          refine ⟨by simp [hst], ?_⟩
          simp only [hst]
          exact Or.inr ⟨hread, hle⟩
      | ok items =>
          obtain ⟨hpos, hcaught⟩ := pollCompactedEventlog_ok_state docs lf hp
          have hmin : lf.position ≤ min lf.endCompact (lf.position + compactedBlockSize) := by
            refine le_min hle ?_
            norm_num [compactedBlockSize]
          simp only [hp]
          constructor
          · rw [hpos]
            exact hmin
          · by_cases hu : min lf.endCompact (lf.position + compactedBlockSize) ≥ lf.endCompact
            · left
              rw [hcaught]
              simp [hu]
            · right
              refine ⟨?_, ?_⟩
              · rw [pollCompactedEventlog_endCompactRead]
                exact hread
              · rw [hpos, pollCompactedEventlog_endCompact]
                exact min_le_left _ _

end StepLemmas

lemma runFollower_add (docs : Docs) (lf : LogFollower) (m n : Nat) :
    runFollower docs lf (m + n) = runFollower docs (runFollower docs lf m) n := by
  induction m generalizing lf with
  | zero => rw [Nat.zero_add]; rfl
  | succ k ih =>
      have : k + 1 + n = (k + n) + 1 := by omega
      rw [this]
      show runFollower docs (GetNext docs lf).state (k + n) =
        runFollower docs (runFollower docs (GetNext docs lf).state k) n
      exact ih (GetNext docs lf).state

lemma runFollower_caughtUp (docs : Docs) (lf : LogFollower) (h : lf.caughtUp = true) :
    ∀ n, (runFollower docs lf n).caughtUp = true := by
  intro n
  induction n generalizing lf with
  | zero => exact h
  | succ k ih =>
      show (runFollower docs (GetNext docs lf).state k).caughtUp = true
      exact ih _ (GetNext_caughtUp_mono docs lf h)

lemma runFollower_posInv (docs : Docs) (lf : LogFollower)
    (hs : TailSane docs) (hinv : PosInv lf) :
    ∀ n, lf.position ≤ (runFollower docs lf n).position ∧
      PosInv (runFollower docs lf n) := by
  intro n
  induction n generalizing lf with
  | zero => exact ⟨le_refl _, hinv⟩
  | succ k ih =>
      obtain ⟨hstep, hinv2⟩ := GetNext_step_posInv docs lf hs hinv
      obtain ⟨hrest, hinv3⟩ := ih (GetNext docs lf).state hinv2
      exact ⟨le_trans hstep hrest, hinv3⟩

lemma tailSane_emptyLogDocs : TailSane emptyLogDocs := by
  intro r items item h hm
  simp only [emptyLogDocs, Except.ok.injEq] at h
  subst h
  exact absurd hm (List.not_mem_nil item)

lemma wrapInt32_eq_self {x : Int} (h1 : -2147483648 ≤ x) (h2 : x ≤ 2147483647) :
    wrapInt32 x = x := by
  unfold wrapInt32
  have h3 : 0 ≤ x + 2147483648 := by linarith
  have h4 : x + 2147483648 < 4294967296 := by linarith
  rw [Int.emod_eq_of_lt h3 h4]
  ring

/-- C1, as stated, is false: with an empty live log the resolved boundary
    is the zero value 0, not the caller-supplied starting position.  Here
    the starting position is 5, the first `GetNext` resolves the boundary,
    and the boundary ends up 0, not 5. -/
theorem C1_counterexample :
    (GetNext emptyLogDocs (NewLogFollower optsStart5)).state.endCompactRead = true ∧
      (GetNext emptyLogDocs (NewLogFollower optsStart5)).state.endCompact ≠
        optsStart5.startAfter := by
  decide

/-- C1 (amended): if the live log has zero entries at resolution time, the
    resolved boundary equals 0 (the zero value of the field), and for every
    non-negative starting position the very first `GetNext` call on a
    compacted-mode follower transitions directly to Tailing with an empty
    result, resetting the position to 0. -/
theorem C1_empty_log_boundary (docs : Docs) (opts : FollowerOptions)
    (hev : ∀ r, docs.eventlog r = .ok [])
    (hcev : ∀ r, docs.compactedEventlog r = .ok [])
    (hcu : opts.caughtUp = false) (hpos : 0 ≤ opts.startAfter) :
    (GetNext docs (NewLogFollower opts)).state.endCompact = 0 ∧
      (GetNext docs (NewLogFollower opts)).result = .ok [] ∧
      (GetNext docs (NewLogFollower opts)).state.caughtUp = true ∧
      (GetNext docs (NewLogFollower opts)).state.position = 0 := by
  have h1 : checkLogEnd docs (NewLogFollower opts) =
      { err := none
        state := { NewLogFollower opts with endCompactRead := true }
        reqs := [.ev boundaryReq] } := by
    unfold checkLogEnd
    simp [NewLogFollower, hev boundaryReq]
  have hmin : min (0 : Int) (opts.startAfter + compactedBlockSize) = 0 := by
    refine min_eq_left ?_
    norm_num [compactedBlockSize]
    linarith
  simp only [GetNext, h1]
  simp only [NewLogFollower, hcu]
  unfold pollCompactedEventlog
  simp only [hcev, hmin]
  norm_num

/-- Witness for the amended C1 at starting position 5 over the empty log
    source. -/
theorem C1_empty_log_boundary_witness :
    optsStart5.caughtUp = false ∧ 0 ≤ optsStart5.startAfter ∧
      ((GetNext emptyLogDocs (NewLogFollower optsStart5)).state.endCompact = 0 ∧
        (GetNext emptyLogDocs (NewLogFollower optsStart5)).result = .ok [] ∧
        (GetNext emptyLogDocs (NewLogFollower optsStart5)).state.caughtUp = true ∧
        (GetNext emptyLogDocs (NewLogFollower optsStart5)).state.position = 0) :=
  ⟨rfl, by decide,
    C1_empty_log_boundary emptyLogDocs optsStart5 (fun _ => rfl) (fun _ => rfl)
      rfl (by decide)⟩

/-- C2 is a code bug: `NewLogFollower` never copies `opts.Metrics` into the
    follower, so the metrics field of every constructed follower is unset
    and no successful `GetNext` call ever reports to the configured sink.
    (The no-sink half of the claim holds: `GetNext` still succeeds.) -/
theorem C2_metrics_dropped :
    ∀ (opts : FollowerOptions) (docs : Docs),
      (NewLogFollower opts).metrics = false ∧
        (GetNext docs (NewLogFollower opts)).reports = [] := by
  intro opts docs
  exact ⟨rfl, GetNext_reports_of_no_metrics docs _ rfl⟩

/-- C3, as stated (for every starting position and boundary), is false:
    starting at position 1000 against a log whose latest entry has ID 10,
    the first successful `GetNext` moves the position down to 10. -/
theorem C3_counterexample :
    (GetNext docsLatest10 (NewLogFollower optsStart1000)).result = .ok [] ∧
      (GetNext docsLatest10 (NewLogFollower optsStart1000)).state.position <
        (NewLogFollower optsStart1000).position := by
  constructor
  · rfl
  · decide

/-- C3 (amended): across any sequence of `GetNext` calls the position is
    non-decreasing, provided the live source only returns items with IDs
    strictly after the requested position and the follower starts tailing
    or with its resolved boundary at or above its position. -/
theorem C3_monotonic_position (docs : Docs) (lf : LogFollower)
    (hs : TailSane docs) (hinv : PosInv lf) {m n : Nat} (hmn : m ≤ n) :
    (runFollower docs lf m).position ≤ (runFollower docs lf n).position := by
  obtain ⟨k, rfl⟩ := Nat.le.dest hmn
  rw [runFollower_add]
  exact (runFollower_posInv docs (runFollower docs lf m) hs
    ((runFollower_posInv docs lf hs hinv m).2) k).1

/-- Witness for the amended C3: two calls on a tailing follower over the
    empty log source. -/
theorem C3_monotonic_position_witness :
    (runFollower emptyLogDocs lfTail7 0).position ≤
      (runFollower emptyLogDocs lfTail7 2).position :=
  C3_monotonic_position emptyLogDocs lfTail7 tailSane_emptyLogDocs
    (Or.inl rfl) (by decide)

/-- C4: with resolved boundary 1000, block size 500 and starting position
    0, the first call advances the position to 500 staying compacted, the
    second advances it to 1000 and flips to Tailing, and the third call
    proceeds in Tailing mode, issuing a live-log request after 1000. -/
theorem C4_window_correctness :
    ((GetNext docsLatest1000 (NewLogFollower optsStart0)).state.position = 500 ∧
      (GetNext docsLatest1000 (NewLogFollower optsStart0)).state.caughtUp = false) ∧
    ((runFollower docsLatest1000 (NewLogFollower optsStart0) 2).position = 1000 ∧
      (runFollower docsLatest1000 (NewLogFollower optsStart0) 2).caughtUp = true) ∧
    ((runFollower docsLatest1000 (NewLogFollower optsStart0) 3).caughtUp = true ∧
      (GetNext docsLatest1000
        (runFollower docsLatest1000 (NewLogFollower optsStart0) 2)).reqs =
        [.ev { after := 1000, batchSize := 100, waitMs := 0 }]) := by
  decide

/-- C5: once the mode is Tailing, no later call — successful or failing —
    returns the follower to Compacted. -/
theorem C5_one_way_transition (docs : Docs) (lf : LogFollower)
    (h : lf.caughtUp = true) (n : Nat) :
    (runFollower docs lf n).caughtUp = true :=
  runFollower_caughtUp docs lf h n

/-- Witness for C5: three calls on a tailing follower over the failing
    source. -/
theorem C5_one_way_transition_witness :
    (runFollower failingDocs lfTail7 3).caughtUp = true :=
  C5_one_way_transition failingDocs lfTail7 rfl 3

/-- C6: in Tailing mode a non-empty type filter is applied client-side —
    items of other types are dropped from the result but the position still
    advances to the last raw item ID (unchanged on an empty raw batch) —
    while in Compacted mode the filter is passed to the source in the
    request. -/
theorem C6_filter_asymmetry :
    (∀ (docs : Docs) (lf : LogFollower) (raw : List EventlogItem),
      lf.caughtUp = true → lf.endCompactRead = true → lf.docType ≠ "" →
      docs.eventlog
          { after := lf.position, batchSize := eventlogBatchSize, waitMs := lf.wait } =
        .ok raw →
      (GetNext docs lf).result =
          .ok (raw.filter fun item => item.type == lf.docType) ∧
        (GetNext docs lf).state.position =
          (match raw.getLast? with
           | some last => last.id
           | none => lf.position)) ∧
    (∀ (docs : Docs) (lf : LogFollower),
      lf.caughtUp = false → lf.endCompactRead = true →
      (GetNext docs lf).reqs =
        [.cev { after := lf.position
                untilId := min lf.endCompact (lf.position + compactedBlockSize)
                type := lf.docType }]) := by
  constructor
  · intro docs lf raw hcu hr hne hres
    have hbeq : (lf.docType == "") = false := by
      simpa using hne
    simp only [GetNext, checkLogEnd_of_read docs lf hr]
    rw [if_pos hcu]
    unfold pollEventlog
    simp only [hres]
    cases hlast : raw.getLast? with
    | none => simp [hbeq]
    | some last => simp [hbeq]
  · intro docs lf hcu hr
    exact GetNext_compacted_reqs docs lf hcu hr

/-- Witness for C6: a tailing fetch returning an `article` and a `note`
    keeps only the `article` but advances the position to the `note` ID;
    a compacted fetch sends the filter in the request. -/
theorem C6_filter_asymmetry_witness :
    ((GetNext docsMixed lfTailArticle).result =
        .ok [{ id := 21, type := "article" }] ∧
      (GetNext docsMixed lfTailArticle).state.position = 22) ∧
    (GetNext docsMixed lfCompactArticle).reqs =
      [.cev { after := 3, untilId := 50, type := "article" }] := by
  have h1 := C6_filter_asymmetry.1 docsMixed lfTailArticle
    [{ id := 21, type := "article" }, { id := 22, type := "note" }]
    rfl rfl (by decide) rfl
  have h2 := C6_filter_asymmetry.2 docsMixed lfCompactArticle rfl rfl
  refine ⟨⟨h1.1.trans (congrArg Except.ok (by decide)), h1.2.trans (by decide)⟩, ?_⟩
  rw [h2]
  decide

/-- C7: every `GetNext` call that returns an error — from boundary
    resolution, the compacted fetch or the tail fetch — leaves position and
    mode exactly as before the call. -/
theorem C7_no_advance_on_failure (docs : Docs) (lf : LogFollower) (e : String)
    (h : (GetNext docs lf).result = .error e) :
    (GetNext docs lf).state.position = lf.position ∧
      (GetNext docs lf).state.caughtUp = lf.caughtUp :=
  GetNext_error_frame docs lf h

/-- Witness for C7: a failing tail fetch leaves position and mode
    untouched. -/
theorem C7_no_advance_on_failure_witness :
    (GetNext failingDocs lfTail7).state.position = lfTail7.position ∧
      (GetNext failingDocs lfTail7).state.caughtUp = lfTail7.caughtUp :=
  C7_no_advance_on_failure failingDocs lfTail7 "poll eventlog: network" rfl

/-- C8: boundary resolution is memoized — once resolved, `checkLogEnd` is
    a no-op that issues no request and `GetNext` leaves the boundary
    unchanged; a failed resolution leaves the resolved flag unset, and any
    unresolved call issues the latest-entry fetch again. -/
theorem C8_boundary_memoization :
    (∀ (docs : Docs) (lf : LogFollower), lf.endCompactRead = true →
      checkLogEnd docs lf = { err := none, state := lf, reqs := [] } ∧
        (GetNext docs lf).state.endCompact = lf.endCompact ∧
        (GetNext docs lf).state.endCompactRead = true) ∧
    (∀ (docs : Docs) (lf : LogFollower) (e : String), lf.endCompactRead = false →
      docs.eventlog boundaryReq = .error e →
      (checkLogEnd docs lf).err = some ("read last event in eventlog: " ++ e) ∧
        (checkLogEnd docs lf).state = lf) ∧
    (∀ (docs : Docs) (lf : LogFollower), lf.endCompactRead = false →
      (checkLogEnd docs lf).reqs = [.ev boundaryReq]) := by
  refine ⟨?_, ?_, ?_⟩
  · intro docs lf hr
    exact ⟨checkLogEnd_of_read docs lf hr, GetNext_read_frame docs lf hr⟩
  · intro docs lf e hr hres
    unfold checkLogEnd
    simp [hr, hres]
  · intro docs lf hr
    unfold checkLogEnd
    cases hres : docs.eventlog boundaryReq with
    | error e => simp [hr, hres]
    | ok items => cases items <;> simp [hr, hres]

/-- Witness for C8: a resolved follower skips the fetch; an unresolved
    follower against the failing source errors, stays unresolved, and
    issues the latest-entry fetch. -/
theorem C8_boundary_memoization_witness :
    (checkLogEnd emptyLogDocs lfTail7 =
        { err := none, state := lfTail7, reqs := [] } ∧
      (GetNext emptyLogDocs lfTail7).state.endCompact = lfTail7.endCompact ∧
      (GetNext emptyLogDocs lfTail7).state.endCompactRead = true) ∧
    ((checkLogEnd failingDocs (NewLogFollower optsStart0)).err =
        some ("read last event in eventlog: " ++ "network") ∧
      (checkLogEnd failingDocs (NewLogFollower optsStart0)).state =
        NewLogFollower optsStart0) ∧
    (checkLogEnd failingDocs (NewLogFollower optsStart0)).reqs =
      [.ev boundaryReq] :=
  ⟨C8_boundary_memoization.1 emptyLogDocs lfTail7 rfl,
    C8_boundary_memoization.2.1 failingDocs (NewLogFollower optsStart0)
      "network" rfl rfl,
    C8_boundary_memoization.2.2 failingDocs (NewLogFollower optsStart0) rfl⟩

/-- C9, as stated (for every caller-supplied duration), is false: a
    duration whose millisecond count is one below the smallest signed
    32-bit value is not clamped from above — the `int32` conversion wraps
    it to the largest 32-bit value instead. -/
theorem C9_counterexample :
    (NewLogFollower optsHugeNegWait).wait ≠
      min (goMilliseconds optsHugeNegWait.waitDuration) maxInt32 := by
  decide

/-- C9 (amended): for every wait duration whose millisecond count is at
    least the smallest signed 32-bit value, the stored wait equals the
    millisecond count clamped from above to the largest signed 32-bit
    value, and Tailing-mode `GetNext` passes the stored wait as the
    long-poll budget of the live request. -/
theorem C9_wait_clamped :
    (∀ opts : FollowerOptions,
      -2147483648 ≤ goMilliseconds opts.waitDuration →
      (NewLogFollower opts).wait =
        min (goMilliseconds opts.waitDuration) maxInt32) ∧
    (∀ (docs : Docs) (lf : LogFollower),
      lf.caughtUp = true → lf.endCompactRead = true →
      (GetNext docs lf).reqs =
        [.ev { after := lf.position, batchSize := eventlogBatchSize,
               waitMs := lf.wait }]) := by
  constructor
  · intro opts hms
    show wrapInt32 (min (goMilliseconds opts.waitDuration) maxInt32) = _
    refine wrapInt32_eq_self ?_ ?_
    · refine le_min hms ?_
      norm_num [maxInt32]
    · calc min (goMilliseconds opts.waitDuration) maxInt32 ≤ maxInt32 :=
            min_le_right _ _
        _ ≤ 2147483647 := by norm_num [maxInt32]
  · intro docs lf hcu hr
    exact GetNext_tail_reqs docs lf hcu hr

/-- Witness for the amended C9: a five-second duration is stored as 5000
    milliseconds and a tailing call forwards the stored wait. -/
theorem C9_wait_clamped_witness :
    (NewLogFollower optsWait5s).wait =
        min (goMilliseconds optsWait5s.waitDuration) maxInt32 ∧
      (GetNext emptyLogDocs lfTail7).reqs =
        [.ev { after := lfTail7.position, batchSize := eventlogBatchSize,
               waitMs := lfTail7.wait }] :=
  ⟨C9_wait_clamped.1 optsWait5s (by decide),
    C9_wait_clamped.2 emptyLogDocs lfTail7 rfl rfl⟩

/-- C10, as stated (for every negative duration), is false: a negative
    duration whose millisecond count is below the smallest signed 32-bit
    value is not stored as that negative count — the `int32` conversion
    wraps it to a positive value. -/
theorem C10_counterexample :
    optsHugeNegWait2.waitDuration < 0 ∧
      (NewLogFollower optsHugeNegWait2).wait ≠
        goMilliseconds optsHugeNegWait2.waitDuration := by
  decide

/-- C10 (amended): for every negative wait duration whose millisecond
    count is at least the smallest signed 32-bit value, the constructor
    stores that negative millisecond count unchanged — no clamp at zero,
    no rejection — and a tailing follower with that stored wait forwards
    it to the live request. -/
theorem C10_negative_wait :
    ∀ opts : FollowerOptions,
      goMilliseconds opts.waitDuration < 0 →
      -2147483648 ≤ goMilliseconds opts.waitDuration →
      (NewLogFollower opts).wait = goMilliseconds opts.waitDuration ∧
        (NewLogFollower opts).wait < 0 ∧
        ∀ (docs : Docs) (lf : LogFollower),
          lf.caughtUp = true → lf.endCompactRead = true →
          lf.wait = (NewLogFollower opts).wait →
          (GetNext docs lf).reqs =
            [.ev { after := lf.position, batchSize := eventlogBatchSize,
                   waitMs := goMilliseconds opts.waitDuration }] := by
  intro opts hneg hms
  have hwait : (NewLogFollower opts).wait = goMilliseconds opts.waitDuration := by
    show wrapInt32 (min (goMilliseconds opts.waitDuration) maxInt32) = _
    have hmin : min (goMilliseconds opts.waitDuration) maxInt32 =
        goMilliseconds opts.waitDuration := by
      refine min_eq_left ?_
      have : (0 : Int) ≤ maxInt32 := by norm_num [maxInt32]
      linarith
    rw [hmin]
    refine wrapInt32_eq_self hms (by linarith)
  refine ⟨hwait, by rw [hwait]; exact hneg, ?_⟩
  intro docs lf hcu hr hw
  have := GetNext_tail_reqs docs lf hcu hr
  rw [this, hw, hwait]

/-- Witness for the amended C10: minus five milliseconds is stored as -5
    and forwarded by a tailing follower with that wait. -/
theorem C10_negative_wait_witness :
    ((NewLogFollower optsNegWait5ms).wait =
        goMilliseconds optsNegWait5ms.waitDuration ∧
      (NewLogFollower optsNegWait5ms).wait < 0) ∧
    (GetNext emptyLogDocs lfNegWait).reqs =
      [.ev { after := lfNegWait.position, batchSize := eventlogBatchSize,
             waitMs := goMilliseconds optsNegWait5ms.waitDuration }] := by
  have h := C10_negative_wait optsNegWait5ms (by decide) (by decide)
  exact ⟨⟨h.1, h.2.1⟩, h.2.2 emptyLogDocs lfNegWait rfl rfl (by decide)⟩

end Koonkie
